import Mathlib

/-!
Verification development for the lcc-sdk limit-enforcement core
(`pkg/client/client.go`, `pkg/client/tps_tracker.go`).

Shallow embedding conventions:
* Go `time.Time` instants are modelled as `Int` nanoseconds; `a.After(b)` is `b < a`.
* Go `float64` values (TPS rates) are modelled as `ℚ`; the code only compares
  them, never does float arithmetic, so the ordering is faithful.
* The network is abstracted at the call boundary: the outcome of the authority
  query (`checkProductLimits` / `queryFeature`) is an `Except String FeatureStatus`
  argument, and the outcome of the usage-report POST is an `Option String`
  (`none` = HTTP 200).  The list of usage-report calls actually issued is
  returned explicitly so that side-effect counting claims can be stated.
* Go maps with `delete` are modelled as `String → Option Int` (absent key reads
  as the zero value, as in Go).
-/

namespace LccSdk

/-- `QuotaInfo` (client.go lines 63-68). -/
structure QuotaInfo where
  limit : Int
  used : Int
  remaining : Int
  resetAt : Int
  deriving Repr, DecidableEq

/-- `FeatureStatus` (client.go lines 49-60): result of a feature check. -/
structure FeatureStatus where
  enabled : Bool
  reason : String
  quota : Option QuotaInfo
  maxCapacity : Int
  maxTPS : ℚ
  maxConcurrency : Int
  deriving Repr, DecidableEq

/-! ## Feature cache (client.go lines 70-80, 841-873) -/

/-- `cacheEntry` (client.go lines 77-80). -/
structure CacheEntryData where
  status : FeatureStatus
  expiresAt : Int
  deriving Repr, DecidableEq

/-- `featureCache` (client.go lines 71-75): per-key entries plus the
client-configured TTL (`cfg.CacheTTL`). -/
structure FeatureCacheState where
  data : String → Option CacheEntryData
  ttl : Int

/-- A cache with no entries and the given client TTL. -/
def emptyCache (ttl : Int) : FeatureCacheState :=
  { data := fun _ => none, ttl := ttl }

/-- `featureCache.set` (client.go lines 858-866): stores the status with
`expiresAt = time.Now().Add(fc.ttl)`.  Note the entry TTL is always the
client-configured `fc.ttl`. -/
def cacheSet (fc : FeatureCacheState) (k : String) (st : FeatureStatus) (now : Int) :
    FeatureCacheState :=
  { fc with data := fun k2 => if k2 = k then some ⟨st, now + fc.ttl⟩ else fc.data k2 }

/-- `featureCache.get` (client.go lines 841-856): returns the entry unless
`time.Now().After(entry.expiresAt)`, i.e. unless `entry.expiresAt < now`. -/
def cacheGet (fc : FeatureCacheState) (k : String) (now : Int) : Option FeatureStatus :=
  match fc.data k with
  | none => none
  | some entry => if entry.expiresAt < now then none else some entry.status

/-- The decoded authority response in `queryFeature` (client.go lines 354-363),
including the server-suggested `cache_ttl` field. -/
structure ServerFeatureResponse where
  featureID : String
  enabled : Bool
  reason : String
  quotaInfo : Option QuotaInfo
  maxCapacity : Int
  maxTPS : ℚ
  maxConcurrency : Int
  cacheTTL : Int
  deriving Repr, DecidableEq

/-- The `FeatureStatus` literal built at client.go lines 369-376.  The decoded
`CacheTTL` field is not carried over. -/
def toFeatureStatus (r : ServerFeatureResponse) : FeatureStatus :=
  { enabled := r.enabled
    reason := r.reason
    quota := r.quotaInfo
    maxCapacity := r.maxCapacity
    maxTPS := r.maxTPS
    maxConcurrency := r.maxConcurrency }

/-- The cache write performed by `CheckFeature` after a successful query
(client.go line 198: `c.cache.set(featureID, status)` with `status` the value
returned by `queryFeature`). -/
def cacheQueryResult (fc : FeatureCacheState) (k : String) (r : ServerFeatureResponse)
    (now : Int) : FeatureCacheState :=
  cacheSet fc k (toFeatureStatus r) now

/-! ## Consume (client.go lines 400-434) -/

/-- Return value of `Consume`, together with the list of usage-report network
calls issued during the call (each element is the reported amount). -/
structure ConsumeResult where
  allowed : Bool
  remaining : Int
  error : Option String
  reportsSent : List Int
  deriving Repr, DecidableEq

/-- `Client.Consume` (client.go lines 400-434).  `fetch` is the outcome of
`checkProductLimits` (cache lookup or authority query); `reportOutcome` is the
outcome of the `reportProductUsage` POST (`none` = success).  The initial
`tpsTracker.RecordRequest()` call on line 403 touches only the rate tracker,
modelled separately below. -/
def consume (fetch : Except String FeatureStatus) (reportOutcome : Option String)
    (amount : Int) : ConsumeResult :=
  match fetch with
  | .error e => { allowed := false, remaining := 0, error := some e, reportsSent := [] }
  | .ok status =>
    if !status.enabled then
      { allowed := false
        remaining :=
          match status.quota with
          | some q => q.remaining
          | none => 0
        error := some ("quota exceeded: " ++ status.reason), reportsSent := [] }
    else
      match reportOutcome with
      | some e => { allowed := false, remaining := 0, error := some e, reportsSent := [amount] }
      | none =>
        { allowed := true
          remaining :=
            match status.quota with
            | some q => if q.remaining - amount < 0 then 0 else q.remaining - amount
            | none => 0
          error := none, reportsSent := [amount] }

/-! ## CheckCapacity (client.go lines 519-535) -/

/-- Return value of `CheckCapacity`. -/
structure CapacityResult where
  allowed : Bool
  maxCapacity : Int
  error : Option String
  deriving Repr, DecidableEq

/-- `Client.CheckCapacity` (client.go lines 519-535). -/
def checkCapacity (fetch : Except String FeatureStatus) (currentUsed : Int) : CapacityResult :=
  match fetch with
  | .error e => { allowed := false, maxCapacity := 0, error := some e }
  | .ok status =>
    if status.maxCapacity ≤ 0 then
      { allowed := false, maxCapacity := 0, error := some "no capacity limit configured" }
    else if currentUsed ≥ status.maxCapacity then
      { allowed := false, maxCapacity := status.maxCapacity, error := some "capacity exceeded" }
    else
      { allowed := true, maxCapacity := status.maxCapacity, error := none }

/-! ## CheckTPS (client.go lines 605-625) -/

/-- Return value of `CheckTPS`. -/
structure TPSResult where
  allowed : Bool
  maxTPS : ℚ
  error : Option String
  deriving Repr, DecidableEq

/-- `Client.CheckTPS` (client.go lines 605-625).  `currentTPS` is the value
obtained from `getCurrentTPS` (helper callback or internal tracker) before the
snapshot fetch. -/
def checkTPS (currentTPS : ℚ) (fetch : Except String FeatureStatus) : TPSResult :=
  match fetch with
  | .error e => { allowed := false, maxTPS := 0, error := some e }
  | .ok status =>
    if status.maxTPS ≤ 0 then
      { allowed := true, maxTPS := 0, error := none }
    else if currentTPS > status.maxTPS then
      { allowed := false, maxTPS := status.maxTPS, error := some "TPS exceeded" }
    else
      { allowed := true, maxTPS := status.maxTPS, error := none }

/-! ## Concurrency ledger and AcquireSlot (client.go lines 82-86, 680-716) -/

/-- The package-level `concurrencyState` map (client.go line 86):
`map[string]int` with Go semantics — an absent key reads as `0`. -/
def Ledger : Type := String → Option Int

/-- The empty `concurrencyState` map. -/
def emptyLedger : Ledger := fun _ => none

/-- `concurrencyState[key]` (Go map read: zero value when absent). -/
def ledgerCount (l : Ledger) (k : String) : Int := (l k).getD 0

/-- `concurrencyState[key] = v`. -/
def ledgerSet (l : Ledger) (k : String) (v : Int) : Ledger :=
  fun k2 => if k2 = k then some v else l k2

/-- `delete(concurrencyState, key)`. -/
def ledgerDelete (l : Ledger) (k : String) : Ledger :=
  fun k2 => if k2 = k then none else l k2

/-- The `release` closure built at client.go lines 704-713: reads the current
count for its captured key and either deletes the entry (count ≤ 1) or
decrements it.  It runs against whatever the ledger holds at invocation time. -/
def releaseSlot (key : String) (l : Ledger) : Ledger :=
  let cur := ledgerCount l key
  if cur ≤ 1 then ledgerDelete l key else ledgerSet l key (cur - 1)

/-- Return value of `AcquireSlot`, with the state of the ledger after the call.
`release` is an `Option` so that "the returned function is non-nil" is a
statable fact: every branch of the Go code returns a non-nil `func()`. -/
structure AcquireResult where
  release : Option (Ledger → Ledger)
  allowed : Bool
  error : Option String
  ledger : Ledger

/-- `Client.AcquireSlot` (client.go lines 680-716).  `key` stands for
`c.instanceID + "::__product__"`; `fetch` is the `checkProductLimits` outcome.
Denial and error paths return the no-op `func() {}` and leave the ledger
untouched. -/
def acquireSlot (fetch : Except String FeatureStatus) (key : String) (l : Ledger) :
    AcquireResult :=
  match fetch with
  | .error e => { release := some (fun l2 => l2), allowed := false, error := some e, ledger := l }
  | .ok status =>
    if status.maxConcurrency ≤ 0 then
      { release := some (fun l2 => l2), allowed := false
        error := some "no concurrency limit configured", ledger := l }
    else
      let current := ledgerCount l key
      if current ≥ status.maxConcurrency then
        { release := some (fun l2 => l2), allowed := false
          error := some "concurrency exceeded", ledger := l }
      else
        { release := some (releaseSlot key), allowed := true, error := none
          ledger := ledgerSet l key (current + 1) }

/-! ## Sliding-window TPS tracker (tps_tracker.go) -/

/-- `tpsTracker` (tps_tracker.go lines 14-18): recorded timestamps (ns) and the
window length (ns). -/
structure TpsTrackerState where
  requests : List Int
  window : Int
  deriving Repr, DecidableEq

/-- `newTPSTracker` (tps_tracker.go lines 21-26): empty list, 1-second window. -/
def newTPSTracker : TpsTrackerState := { requests := [], window := 1000000000 }

/-- The pruning scan in `RecordRequest` (tps_tracker.go lines 40-46): index of
the first timestamp strictly after `cutoff`, if any (`validIdx` stays 0 when no
element qualifies, exactly as the Go loop leaves it). -/
def firstAfterIdx (cutoff : Int) : List Int → Option Nat
  | [] => none
  | req :: rest =>
    if cutoff < req then some 0 else (firstAfterIdx cutoff rest).map (· + 1)

/-- `tpsTracker.RecordRequest` (tps_tracker.go lines 30-52): append `now`, then
drop the prefix before the first timestamp inside the window (only when
`validIdx > 0`, as in the source). -/
def recordRequest (t : TpsTrackerState) (now : Int) : TpsTrackerState :=
  let reqs := t.requests ++ [now]
  let cutoff := now - t.window
  let validIdx := (firstAfterIdx cutoff reqs).getD 0
  { t with requests := if validIdx > 0 then reqs.drop validIdx else reqs }

/-- `tpsTracker.getCurrentRate` (tps_tracker.go lines 56-71): count of
timestamps strictly after `now - window`, as a float. -/
def getCurrentRate (t : TpsTrackerState) (now : Int) : ℚ :=
  ((t.requests.filter (fun req => decide (now - t.window < req))).length : ℚ)

/-- Record a sequence of events in order (repeated `RecordRequest` calls). -/
def recordAll (t : TpsTrackerState) (ts : List Int) : TpsTrackerState :=
  ts.foldl recordRequest t

/-! ## Interleaving model of CheckFeature (client.go lines 185-201)

`CheckFeature` is: read the cache; on a hit return the cached status; on a miss
query the authority, write the result to the cache, and return it.  The cache
read, the network query, and the cache write are separate critical sections
(the cache lock is released between them), so a concurrent caller can run
between any two of them.  Each concurrent caller is a small program counter;
a schedule picks which caller performs its next atomic step. -/

/-- Program counter of one `CheckFeature` caller. -/
inductive CallerPC where
  | start
  | willQuery
  | willSet (st : FeatureStatus)
  | done (st : FeatureStatus)
  deriving Repr, DecidableEq

/-- Shared state: the cache entry for the one key under consideration (fresh
entries only — the cold-cache scenario), the number of authority queries issued
so far, and every caller's program counter. -/
structure CheckSystem where
  cache : Option FeatureStatus
  queries : Nat
  callers : List CallerPC
  deriving Repr, DecidableEq

/-- One atomic step of one caller.  `resp` is the (fixed) authority response.
Returns the new program counter, the new cache, and the new query count. -/
def stepCaller (resp : FeatureStatus) (cache : Option FeatureStatus) (queries : Nat) :
    CallerPC → CallerPC × Option FeatureStatus × Nat
  | .start =>
    match cache with
    | some st => (.done st, cache, queries)
    | none => (.willQuery, cache, queries)
  | .willQuery => (.willSet resp, cache, queries + 1)
  | .willSet st => (.done st, some st, queries)
  | .done st => (.done st, cache, queries)

/-- Let caller `i` perform its next atomic step (no-op for an out-of-range
index). -/
def stepSystem (resp : FeatureStatus) (s : CheckSystem) (i : Nat) : CheckSystem :=
  match s.callers[i]? with
  | none => s
  | some pc =>
    let r := stepCaller resp s.cache s.queries pc
    { cache := r.2.1, queries := r.2.2, callers := s.callers.set i r.1 }

/-- Run a schedule (list of caller indices) from a state. -/
def runSchedule (resp : FeatureStatus) (s : CheckSystem) (sched : List Nat) : CheckSystem :=
  sched.foldl (stepSystem resp) s

/-- Cold cache, `n` concurrent `CheckFeature` callers about to start. -/
def coldSystem (n : Nat) : CheckSystem :=
  { cache := none, queries := 0, callers := List.replicate n .start }

/-- A caller that may still issue an authority query in the future. -/
def canQuery : CallerPC → Bool
  | .start => true
  | .willQuery => true
  | .willSet _ => false
  | .done _ => false

/-- Upper bound on the queries the system can ever reach: queries already
issued plus callers that may still query. -/
def queryBudget (s : CheckSystem) : Nat :=
  s.queries + s.callers.countP canQuery

/-! ## Concrete sample values used by counterexamples and witnesses -/

/-- A denied snapshot with no quota block (end-to-end scenario B shape). -/
def stDenied : FeatureStatus :=
  { enabled := false, reason := "quota_exceeded", quota := none
    maxCapacity := 0, maxTPS := 0, maxConcurrency := 0 }

/-- An admitted snapshot with `remaining = 10`. -/
def stQuota10 : FeatureStatus :=
  { enabled := true, reason := "ok"
    quota := some { limit := 100, used := 90, remaining := 10, resetAt := 0 }
    maxCapacity := 0, maxTPS := 0, maxConcurrency := 0 }

/-- An admitted snapshot with no limits configured. -/
def stNoLimits : FeatureStatus :=
  { enabled := true, reason := "ok", quota := none
    maxCapacity := 0, maxTPS := 0, maxConcurrency := 0 }

/-- An admitted snapshot with `maxCapacity = 5`. -/
def stCap5 : FeatureStatus :=
  { enabled := true, reason := "ok", quota := none
    maxCapacity := 5, maxTPS := 0, maxConcurrency := 0 }

/-- An admitted snapshot with `maxTPS = 4`. -/
def stTPS4 : FeatureStatus :=
  { enabled := true, reason := "ok", quota := none
    maxCapacity := 0, maxTPS := 4, maxConcurrency := 0 }

/-- An admitted snapshot with `maxConcurrency = 3`. -/
def stConc3 : FeatureStatus :=
  { enabled := true, reason := "ok", quota := none
    maxCapacity := 0, maxTPS := 0, maxConcurrency := 3 }

/-- A ledger in which key `"k"` is held once (one outstanding slot). -/
def ledgerOne : Ledger := ledgerSet emptyLedger "k" 1

/-- A ledger in which key `"k"` is held three times. -/
def ledgerThree : Ledger := ledgerSet emptyLedger "k" 3

/-- An authority response carrying a server-suggested cache lifetime of 99. -/
def respTTL99 : ServerFeatureResponse :=
  { featureID := "__product__", enabled := true, reason := "ok", quotaInfo := none
    maxCapacity := 0, maxTPS := 0, maxConcurrency := 0, cacheTTL := 99 }

/-! # Theorems -/

/-- C4: `CheckCapacity(x)` with no `maxCapacity` configured (the Go zero value,
or any non-positive value) returns `admitted = false` for every `x`, including
`x = 0`; with a positive `maxCapacity` it admits iff `x < maxCapacity`
(strict: `x = maxCapacity` is denied). -/
theorem checkCapacity_fail_closed_strict (status : FeatureStatus) (x : Int) :
    (status.maxCapacity ≤ 0 → (checkCapacity (.ok status) x).allowed = false) ∧
    (0 < status.maxCapacity →
      ((checkCapacity (.ok status) x).allowed = true ↔ x < status.maxCapacity)) := by
  simp only [checkCapacity]
  constructor
  · intro h
    rw [if_pos h]
  · intro h
    rw [if_neg (not_le.mpr h)]
    by_cases hx : x ≥ status.maxCapacity
    · rw [if_pos hx]
      exact iff_of_false (by simp) (not_lt.mpr hx)
    · rw [if_neg hx]
      exact iff_of_true rfl (not_le.mp hx)

/-- Witness for `checkCapacity_fail_closed_strict` at `maxCapacity = 0, x = 0`
and at `maxCapacity = 5, x = 3`. -/
theorem checkCapacity_fail_closed_strict_witness :
    (checkCapacity (.ok stDenied) 0).allowed = false ∧
    ((checkCapacity (.ok stCap5) 3).allowed = true ↔ (3 : Int) < stCap5.maxCapacity) :=
  ⟨(checkCapacity_fail_closed_strict stDenied 0).1 (by decide),
   (checkCapacity_fail_closed_strict stCap5 3).2 (by decide)⟩

/-- C7: `CheckTPS` with no rate limit configured (`maxTPS` zero/unset, or any
non-positive value) admits unconditionally; with a positive limit it admits iff
`currentTPS ≤ maxTPS`, and on denial the returned max equals the configured
limit. -/
theorem checkTPS_limit_semantics (status : FeatureStatus) (cur : ℚ) :
    (status.maxTPS ≤ 0 → (checkTPS cur (.ok status)).allowed = true) ∧
    (0 < status.maxTPS →
      (((checkTPS cur (.ok status)).allowed = true ↔ cur ≤ status.maxTPS) ∧
       ((checkTPS cur (.ok status)).allowed = false →
         (checkTPS cur (.ok status)).maxTPS = status.maxTPS))) := by
  simp only [checkTPS]
  constructor
  · intro h
    rw [if_pos h]
  · intro h
    rw [if_neg (not_le.mpr h)]
    by_cases hc : cur > status.maxTPS
    · rw [if_pos hc]
      exact ⟨iff_of_false (by simp) (not_le.mpr hc), fun _ => rfl⟩
    · rw [if_neg hc]
      exact ⟨iff_of_true rfl (not_lt.mp hc), fun hf => absurd hf (by simp)⟩

/-- Witness for `checkTPS_limit_semantics`: no limit at `maxTPS = 0`, and limit
`4` with current rate `2`. -/
theorem checkTPS_limit_semantics_witness :
    (checkTPS 7 (.ok stNoLimits)).allowed = true ∧
    ((checkTPS 2 (.ok stTPS4)).allowed = true ↔ (2 : ℚ) ≤ stTPS4.maxTPS) :=
  ⟨(checkTPS_limit_semantics stNoLimits 7).1 (by decide),
   ((checkTPS_limit_semantics stTPS4 2).2 (by decide)).1⟩

/-- C6: on an admitted `Consume(amount)` whose snapshot carries a quota block
and whose usage report succeeds, the returned remaining is
`max 0 (quota.remaining - amount)` and exactly one usage report, for `amount`,
is sent; when the snapshot denies admission, no usage report is sent at all. -/
theorem consume_arithmetic_and_report (status : FeatureStatus) (q : QuotaInfo) (amount : Int)
    (hen : status.enabled = true) (hq : status.quota = some q) :
    ((consume (.ok status) none amount).allowed = true ∧
     (consume (.ok status) none amount).remaining = max 0 (q.remaining - amount) ∧
     (consume (.ok status) none amount).reportsSent = [amount]) ∧
    (∀ (st2 : FeatureStatus) (rep : Option String), st2.enabled = false →
      (consume (.ok st2) rep amount).reportsSent = []) := by
  constructor
  · simp only [consume, hen, hq, Bool.not_true, Bool.false_eq_true, if_false]
    refine ⟨trivial, ?_, trivial⟩
    split
    · omega
    · omega
  · intro st2 rep h2
    simp [consume, h2]

/-- Witness for `consume_arithmetic_and_report`: `remaining = 10`,
`Consume(3)` yields `7` with one report of `3`; a denied snapshot sends no
report. -/
theorem consume_arithmetic_and_report_witness :
    ((consume (.ok stQuota10) none 3).allowed = true ∧
     (consume (.ok stQuota10) none 3).remaining = max 0 (10 - 3) ∧
     (consume (.ok stQuota10) none 3).reportsSent = [3]) ∧
    (consume (.ok stDenied) none 3).reportsSent = [] :=
  ⟨(consume_arithmetic_and_report stQuota10 { limit := 100, used := 90, remaining := 10, resetAt := 0 }
      3 (by decide) (by decide)).1,
   (consume_arithmetic_and_report stQuota10 { limit := 100, used := 90, remaining := 10, resetAt := 0 }
      3 (by decide) (by decide)).2 stDenied none (by decide)⟩

/-- C2 counterexample: `Consume(1)` against a snapshot with `admitted = false`
(no quota block) returns `admitted = false` and `remaining = 0`, but its error
is NOT nil — the denial is surfaced as a non-nil `fmt.Errorf` error
(client.go line 417), contradicting the claimed `(false, 0, nil)`. -/
theorem consume_denied_error_nonnil_cex :
    (consume (.ok stDenied) none 1).allowed = false ∧
    (consume (.ok stDenied) none 1).remaining = 0 ∧
    (consume (.ok stDenied) none 1).error ≠ none := by
  refine ⟨rfl, rfl, ?_⟩
  decide

/-- C2 amended: limit-exceeded outcomes of the four zero-intrusion primitives
are returned as `admitted = false` together with a NON-nil error that carries
the reason text (not as nil-error results); `Consume` against a denying
snapshot sends no usage report. -/
theorem limit_exceeded_denials (status : FeatureStatus) (x amount : Int) (cur : ℚ)
    (l : Ledger) (key : String) :
    (status.enabled = false →
      (consume (.ok status) none amount).allowed = false ∧
      (consume (.ok status) none amount).error ≠ none ∧
      (consume (.ok status) none amount).reportsSent = []) ∧
    (0 < status.maxCapacity → status.maxCapacity ≤ x →
      (checkCapacity (.ok status) x).allowed = false ∧
      (checkCapacity (.ok status) x).error ≠ none) ∧
    (0 < status.maxTPS → status.maxTPS < cur →
      (checkTPS cur (.ok status)).allowed = false ∧
      (checkTPS cur (.ok status)).error ≠ none) ∧
    (0 < status.maxConcurrency → status.maxConcurrency ≤ ledgerCount l key →
      (acquireSlot (.ok status) key l).allowed = false ∧
      (acquireSlot (.ok status) key l).error ≠ none) := by
  refine ⟨?_, ?_, ?_, ?_⟩
  · intro h
    simp [consume, h]
  · intro h1 h2
    simp only [checkCapacity]
    rw [if_neg (not_le.mpr h1), if_pos (by omega : x ≥ status.maxCapacity)]
    exact ⟨rfl, by simp⟩
  · intro h1 h2
    simp only [checkTPS]
    rw [if_neg (not_le.mpr h1), if_pos h2]
    exact ⟨rfl, by simp⟩
  · intro h1 h2
    simp only [acquireSlot]
    rw [if_neg (not_le.mpr h1), if_pos (by omega : ledgerCount l key ≥ status.maxConcurrency)]
    exact ⟨rfl, by simp⟩

/-- Witness for `limit_exceeded_denials`: one concrete denial per primitive. -/
theorem limit_exceeded_denials_witness :
    ((consume (.ok stDenied) none 1).allowed = false ∧
     (consume (.ok stDenied) none 1).error ≠ none ∧
     (consume (.ok stDenied) none 1).reportsSent = []) ∧
    ((checkCapacity (.ok stCap5) 5).allowed = false ∧
     (checkCapacity (.ok stCap5) 5).error ≠ none) ∧
    ((checkTPS 5 (.ok stTPS4)).allowed = false ∧
     (checkTPS 5 (.ok stTPS4)).error ≠ none) ∧
    ((acquireSlot (.ok stConc3) "k" ledgerThree).allowed = false ∧
     (acquireSlot (.ok stConc3) "k" ledgerThree).error ≠ none) :=
  ⟨(limit_exceeded_denials stDenied 0 1 0 emptyLedger "k").1 (by decide),
   (limit_exceeded_denials stCap5 5 1 0 emptyLedger "k").2.1 (by decide) (by decide),
   (limit_exceeded_denials stTPS4 0 1 5 emptyLedger "k").2.2.1 (by decide) (by decide),
   (limit_exceeded_denials stConc3 0 1 0 ledgerThree "k").2.2.2 (by decide) (by decide)⟩

/-- C8 counterexample: with `ttl = 5`, an entry stored at `t = 0` is still
served at exactly `t' = t + ttl = 5` — `get` expires only when
`time.Now().After(expiresAt)` is strict (client.go line 851), so the claimed
absence at exactly `t + ttl` is false. -/
theorem cacheGet_at_expiry_cex :
    cacheGet (cacheSet (emptyCache 5) "k" stNoLimits 0) "k" 5 = some stNoLimits ∧
    cacheGet (cacheSet (emptyCache 5) "k" stNoLimits 0) "k" 5 ≠ none := by
  constructor
  · decide
  · decide

/-- C8 amended: after `put(k, snap, ttl)` at time `t`, `get(k)` returns `snap`
for every `t'` with `t' ≤ t + ttl` (in particular the whole claimed interval
`t ≤ t' < t + ttl`, and also the boundary `t' = t + ttl`), and returns absent
exactly for `t' > t + ttl`. -/
theorem cacheGet_window (fc : FeatureCacheState) (k : String) (st : FeatureStatus)
    (t t2 : Int) :
    (t2 ≤ t + fc.ttl → cacheGet (cacheSet fc k st t) k t2 = some st) ∧
    (t + fc.ttl < t2 → cacheGet (cacheSet fc k st t) k t2 = none) := by
  constructor
  · intro h
    simp [cacheGet, cacheSet, not_lt.mpr h]
  · intro h
    simp [cacheGet, cacheSet, h]

/-- Witness for `cacheGet_window` at `ttl = 5`, `t = 0`, query times 3 and 6. -/
theorem cacheGet_window_witness :
    cacheGet (cacheSet (emptyCache 5) "k" stNoLimits 0) "k" 3 = some stNoLimits ∧
    cacheGet (cacheSet (emptyCache 5) "k" stNoLimits 0) "k" 6 = none :=
  ⟨(cacheGet_window (emptyCache 5) "k" stNoLimits 0 3).1 (by decide),
   (cacheGet_window (emptyCache 5) "k" stNoLimits 0 6).2 (by decide)⟩

/-- C5 counterexample: the authority response carries a server-suggested
lifetime of 99, the client TTL is 5, and the entry is cached at `t = 0`: the
stored expiry is `0 + 5` (the client TTL, client.go line 864), and `get` at
`t = 10` — well inside the server-suggested lifetime — already reports absent.
The decoded `cache_ttl` field (client.go line 362) is never used. -/
theorem server_ttl_ignored_cex :
    (cacheQueryResult (emptyCache 5) "__product__" respTTL99 0).data "__product__" =
      some { status := toFeatureStatus respTTL99, expiresAt := 5 } ∧
    cacheGet (cacheQueryResult (emptyCache 5) "__product__" respTTL99 0) "__product__" 10 =
      none ∧
    (10 : Int) < respTTL99.cacheTTL := by
  refine ⟨by decide, by decide, by decide⟩

/-- C5 amended: the cache entry created from an authority response always
expires after the client-configured default TTL; the server-suggested
`cache_ttl` is decoded but ignored (the stored entry is unchanged under any
modification of `cacheTTL`). -/
theorem cacheQueryResult_uses_client_ttl (fc : FeatureCacheState) (k : String)
    (r : ServerFeatureResponse) (t : Int) :
    (cacheQueryResult fc k r t).data k =
      some { status := toFeatureStatus r, expiresAt := t + fc.ttl } ∧
    (∀ n : Int,
      (cacheQueryResult fc k { r with cacheTTL := n } t).data k =
        (cacheQueryResult fc k r t).data k) := by
  constructor
  · simp [cacheQueryResult, cacheSet]
  · intro n
    rfl

/-! ## Ledger helper lemmas (shared) -/

theorem ledgerCount_set_self (l : Ledger) (k : String) (v : Int) :
    ledgerCount (ledgerSet l k v) k = v := by
  simp [ledgerCount, ledgerSet]

theorem ledgerCount_delete_self (l : Ledger) (k : String) :
    ledgerCount (ledgerDelete l k) k = 0 := by
  simp [ledgerCount, ledgerDelete]

/-- One invocation of the release closure maps the count at its key to
`if count ≤ 1 then 0 else count - 1`. -/
theorem ledgerCount_release (l : Ledger) (k : String) :
    ledgerCount (releaseSlot k l) k =
      if ledgerCount l k ≤ 1 then 0 else ledgerCount l k - 1 := by
  simp only [releaseSlot]
  by_cases h : ledgerCount l k ≤ 1
  · rw [if_pos h, if_pos h, ledgerCount_delete_self]
  · rw [if_neg h, if_neg h, ledgerCount_set_self]

/-- The count at the released key is never negative after a release. -/
theorem ledgerCount_release_nonneg (l : Ledger) (k : String) :
    0 ≤ ledgerCount (releaseSlot k l) k := by
  rw [ledgerCount_release]
  split <;> omega

/-- On a successful acquisition the ledger gains one slot at the key and the
returned capability is the decrementing closure. -/
theorem acquireSlot_success (status : FeatureStatus) (key : String) (l : Ledger)
    (hok : (acquireSlot (.ok status) key l).allowed = true) :
    (acquireSlot (.ok status) key l).ledger = ledgerSet l key (ledgerCount l key + 1) ∧
    (acquireSlot (.ok status) key l).release = some (releaseSlot key) := by
  simp only [acquireSlot] at hok ⊢
  by_cases h1 : status.maxConcurrency ≤ 0
  · rw [if_pos h1] at hok
    exact absurd hok (by simp)
  · rw [if_neg h1] at hok ⊢
    by_cases h2 : ledgerCount l key ≥ status.maxConcurrency
    · rw [if_pos h2] at hok
      exact absurd hok (by simp)
    · rw [if_neg h2]
      exact ⟨rfl, rfl⟩

/-- C3 counterexample: with another holder present (count 1 before the
acquisition), a successful `AcquireSlot` raises the count to 2; invoking the
returned release twice drives the count to 0, not back to the pre-acquisition
count 1 — the closure (client.go lines 704-713) decrements on every invocation,
it is not idempotent. -/
theorem release_double_decrement_cex :
    ledgerCount ledgerOne "k" = 1 ∧
    (acquireSlot (.ok stConc3) "k" ledgerOne).allowed = true ∧
    (acquireSlot (.ok stConc3) "k" ledgerOne).release = some (releaseSlot "k") ∧
    ledgerCount
      (releaseSlot "k" (releaseSlot "k" ((acquireSlot (.ok stConc3) "k" ledgerOne).ledger)))
      "k" = 0 ∧
    ledgerCount
      (releaseSlot "k" (releaseSlot "k" ((acquireSlot (.ok stConc3) "k" ledgerOne).ledger)))
      "k" ≠ ledgerCount ledgerOne "k" := by
  refine ⟨by decide, by decide, rfl, by decide, by decide⟩

/-- C3 amended: the release capability decrements the count by one on EVERY
invocation (clamped at zero): a single invocation restores the pre-acquisition
count, the count never goes negative under any number of invocations, but a
second invocation decrements again, leaving `max 0 (pre - 1)` instead of
`pre`. -/
theorem release_decrements_per_invocation (status : FeatureStatus) (key : String) (l : Ledger)
    (hpre : 0 ≤ ledgerCount l key)
    (hok : (acquireSlot (.ok status) key l).allowed = true) :
    ledgerCount (releaseSlot key ((acquireSlot (.ok status) key l).ledger)) key
      = ledgerCount l key ∧
    (∀ n : ℕ,
      0 ≤ ledgerCount ((releaseSlot key)^[n] ((acquireSlot (.ok status) key l).ledger)) key) ∧
    ledgerCount (releaseSlot key (releaseSlot key ((acquireSlot (.ok status) key l).ledger)))
      key = max 0 (ledgerCount l key - 1) := by
  obtain ⟨hl, -⟩ := acquireSlot_success status key l hok
  rw [hl]
  refine ⟨?_, ?_, ?_⟩
  · rw [ledgerCount_release, ledgerCount_set_self]
    split <;> omega
  · intro n
    cases n with
    | zero =>
      rw [Function.iterate_zero_apply, ledgerCount_set_self]
      omega
    | succ m =>
      rw [Function.iterate_succ_apply']
      exact ledgerCount_release_nonneg _ _
  · rw [ledgerCount_release, ledgerCount_release, ledgerCount_set_self, max_def]
    split_ifs <;> omega

/-- Witness for `release_decrements_per_invocation` at `maxConcurrency = 3`,
pre-acquisition count 1. -/
theorem release_decrements_per_invocation_witness :
    ledgerCount (releaseSlot "k" ((acquireSlot (.ok stConc3) "k" ledgerOne).ledger)) "k"
      = ledgerCount ledgerOne "k" ∧
    0 ≤ ledgerCount ((releaseSlot "k")^[2] ((acquireSlot (.ok stConc3) "k" ledgerOne).ledger))
      "k" ∧
    ledgerCount (releaseSlot "k" (releaseSlot "k"
        ((acquireSlot (.ok stConc3) "k" ledgerOne).ledger))) "k"
      = max 0 (ledgerCount ledgerOne "k" - 1) :=
  ⟨(release_decrements_per_invocation stConc3 "k" ledgerOne (by decide) (by decide)).1,
   (release_decrements_per_invocation stConc3 "k" ledgerOne (by decide) (by decide)).2.1 2,
   (release_decrements_per_invocation stConc3 "k" ledgerOne (by decide) (by decide)).2.2⟩

/-- C10: every `AcquireSlot` call that denies or errors still returns a
non-nil release function (the Go `func() {}` literal), that function leaves
the ledger unchanged no matter how many times it is invoked, and the denied
acquire itself does not mutate the ledger. -/
theorem denied_acquire_release_noop (fetch : Except String FeatureStatus) (key : String)
    (l : Ledger) (hden : (acquireSlot fetch key l).allowed = false) :
    (acquireSlot fetch key l).release ≠ none ∧
    (acquireSlot fetch key l).ledger = l ∧
    ∀ g, (acquireSlot fetch key l).release = some g →
      ∀ (n : ℕ) (l2 : Ledger) (k2 : String), ledgerCount (g^[n] l2) k2 = ledgerCount l2 k2 := by
  have hno : (acquireSlot fetch key l).release = some (fun l2 => l2) ∧
      (acquireSlot fetch key l).ledger = l := by
    match fetch with
    | .error e => exact ⟨rfl, rfl⟩
    | .ok status =>
      simp only [acquireSlot] at hden ⊢
      by_cases h1 : status.maxConcurrency ≤ 0
      · rw [if_pos h1]
        exact ⟨rfl, rfl⟩
      · rw [if_neg h1] at hden ⊢
        by_cases h2 : ledgerCount l key ≥ status.maxConcurrency
        · rw [if_pos h2]
          exact ⟨rfl, rfl⟩
        · rw [if_neg h2] at hden
          exact absurd hden (by simp)
  refine ⟨by rw [hno.1]; simp, hno.2, ?_⟩
  intro g hg n l2 k2
  rw [hno.1] at hg
  obtain rfl := Option.some.inj hg
  show ledgerCount (id^[n] l2) k2 = ledgerCount l2 k2
  rw [Function.iterate_id]
  rfl

/-! ## CheckFeature interleaving lemmas (shared) -/

/-- Exchange law for `countP` under a single-position update. -/
theorem countP_set_exchange (p : CallerPC → Bool) :
    ∀ (l : List CallerPC) (i : Nat) (a b : CallerPC), l[i]? = some b →
      (l.set i a).countP p + (if p b then 1 else 0) =
        l.countP p + (if p a then 1 else 0) := by
  intro l
  induction l with
  | nil =>
    intro i a b h
    simp at h
  | cons c t ih =>
    intro i a b h
    cases i with
    | zero =>
      simp only [List.getElem?_cons_zero, Option.some.injEq] at h
      subst h
      simp only [List.set_cons_zero, List.countP_cons]
      omega
    | succ j =>
      simp only [List.getElem?_cons_succ] at h
      simp only [List.set_cons_succ, List.countP_cons]
      have := ih j a b h
      omega

/-- One step of the interleaving model never increases the query budget. -/
theorem queryBudget_step (resp : FeatureStatus) (s : CheckSystem) (i : Nat) :
    queryBudget (stepSystem resp s i) ≤ queryBudget s := by
  simp only [stepSystem]
  cases hpc : s.callers[i]? with
  | none => exact le_refl _
  | some pc =>
    have hex := countP_set_exchange canQuery s.callers i
      (stepCaller resp s.cache s.queries pc).1 pc hpc
    simp only [queryBudget]
    cases pc with
    | start =>
      cases hc : s.cache with
      | some st =>
        simp [stepCaller, hc, canQuery] at hex ⊢
        omega
      | none =>
        simp [stepCaller, hc, canQuery] at hex ⊢
        omega
    | willQuery =>
      simp [stepCaller, canQuery] at hex ⊢
      omega
    | willSet st =>
      simp [stepCaller, canQuery] at hex ⊢
      omega
    | done st =>
      simp [stepCaller, canQuery] at hex ⊢
      omega

/-- Running any schedule never increases the query budget. -/
theorem queryBudget_run (resp : FeatureStatus) :
    ∀ (sched : List Nat) (s : CheckSystem),
      queryBudget (runSchedule resp s sched) ≤ queryBudget s := by
  intro sched
  induction sched with
  | nil => intro s; exact le_refl _
  | cons i rest ih =>
    intro s
    have h1 : queryBudget (runSchedule resp (stepSystem resp s i) rest) ≤
        queryBudget (stepSystem resp s i) := ih _
    have h2 := queryBudget_step resp s i
    simp only [runSchedule, List.foldl_cons] at h1 ⊢
    omega

theorem countP_replicate_start (n : Nat) :
    (List.replicate n CallerPC.start).countP canQuery = n := by
  induction n with
  | zero => rfl
  | succ m ih =>
    rw [List.replicate_succ, List.countP_cons, ih]
    simp [canQuery]

/-- C1 counterexample: two concurrent `CheckFeature` callers on a cold cache,
interleaved so that both pass the cache check before either stores the result,
issue TWO authority queries — the claimed "exactly one network query" fails
because `CheckFeature` (client.go lines 185-201) performs no request
coalescing: the cache read, the query, and the cache write are separate
critical sections. -/
theorem checkFeature_no_coalescing_cex :
    (runSchedule stNoLimits (coldSystem 2) [0, 1, 0, 0, 1, 1]).queries = 2 ∧
    (runSchedule stNoLimits (coldSystem 2) [0, 1, 0, 0, 1, 1]).queries ≠ 1 ∧
    (runSchedule stNoLimits (coldSystem 2) [0, 1, 0, 0, 1, 1]).callers =
      [.done stNoLimits, .done stNoLimits] := by
  refine ⟨by decide, by decide, by decide⟩

/-- C1 amended: each `CheckFeature` call issues at most one authority query,
so `n` concurrent calls on a cold cache issue at most `n` queries under every
interleaving (not exactly one: there is no coalescing); a fully sequential
execution of two callers issues exactly one query, with both callers
receiving the same snapshot. -/
theorem checkFeature_queries_per_caller (resp : FeatureStatus) (n : Nat) (sched : List Nat) :
    (runSchedule resp (coldSystem n) sched).queries ≤ n ∧
    ((runSchedule resp (coldSystem 2) [0, 0, 0, 1]).queries = 1 ∧
     (runSchedule resp (coldSystem 2) [0, 0, 0, 1]).callers = [.done resp, .done resp]) := by
  refine ⟨?_, rfl, rfl⟩
  have h := queryBudget_run resp sched (coldSystem n)
  have hb : queryBudget (coldSystem n) = n := by
    simp [queryBudget, coldSystem, countP_replicate_start]
  have hq : (runSchedule resp (coldSystem n) sched).queries ≤
      queryBudget (runSchedule resp (coldSystem n) sched) := Nat.le_add_right _ _
  omega

/-! ## TPS tracker lemmas (shared) -/

/-- In a strictly increasing list the head bounds every member from below. -/
theorem chain_lt_head_le :
    ∀ (t1 : Int) (rest : List Int), List.Chain' (· < ·) (t1 :: rest) →
      ∀ x ∈ t1 :: rest, t1 ≤ x := by
  intro t1 rest
  induction rest generalizing t1 with
  | nil =>
    intro _ x hx
    simp at hx
    omega
  | cons t2 rest2 ih =>
    intro hch x hx
    rw [List.chain'_cons] at hch
    rcases List.mem_cons.mp hx with h | h
    · omega
    · have := ih t2 hch.2 x h
      omega

/-- In a nondecreasing list the head bounds every member from below. -/
theorem chain_le_head_le :
    ∀ (t1 : Int) (rest : List Int), List.Chain' (· ≤ ·) (t1 :: rest) →
      ∀ x ∈ t1 :: rest, t1 ≤ x := by
  intro t1 rest
  induction rest generalizing t1 with
  | nil =>
    intro _ x hx
    simp at hx
    omega
  | cons t2 rest2 ih =>
    intro hch x hx
    rw [List.chain'_cons] at hch
    rcases List.mem_cons.mp hx with h | h
    · omega
    · have := ih t2 hch.2 x h
      omega

/-- In a strictly increasing list the last element bounds every member from
above. -/
theorem chain_lt_le_getLast :
    ∀ (l : List Int) (h : l ≠ []), List.Chain' (· < ·) l →
      ∀ x ∈ l, x ≤ l.getLast h := by
  intro l
  induction l with
  | nil => intro h; exact absurd rfl h
  | cons a t ih =>
    intro _ hch x hx
    cases t with
    | nil =>
      simp at hx
      simp [hx, List.getLast]
    | cons b t2 =>
      rw [List.chain'_cons] at hch
      rw [List.getLast_cons (by simp)]
      rcases List.mem_cons.mp hx with h | h
      · subst h
        have hb := ih (by simp) hch.2 b (by simp)
        omega
      · exact ih (by simp) hch.2 x h

/-- When the scan finds no timestamp after the cutoff, every timestamp is at
or before the cutoff. -/
theorem firstAfterIdx_none (cutoff : Int) :
    ∀ (l : List Int), firstAfterIdx cutoff l = none → ∀ x ∈ l, x ≤ cutoff := by
  intro l
  induction l with
  | nil =>
    intro _ x hx
    simp at hx
  | cons a t ih =>
    intro hf x hx
    simp only [firstAfterIdx] at hf
    by_cases hc : cutoff < a
    · rw [if_pos hc] at hf
      exact absurd hf (by simp)
    · rw [if_neg hc] at hf
      rcases List.mem_cons.mp hx with h | h
      · omega
      · exact ih (Option.map_eq_none'.mp hf) x h

/-- In a nondecreasing list, dropping the prefix before the first timestamp
after the cutoff leaves only timestamps after the cutoff. -/
theorem firstAfterIdx_drop (cutoff : Int) :
    ∀ (l : List Int), List.Chain' (· ≤ ·) l →
      ∀ i, firstAfterIdx cutoff l = some i → ∀ x ∈ l.drop i, cutoff < x := by
  intro l
  induction l with
  | nil =>
    intro _ i hf
    simp [firstAfterIdx] at hf
  | cons a t ih =>
    intro hch i hf x hx
    simp only [firstAfterIdx] at hf
    by_cases hc : cutoff < a
    · rw [if_pos hc] at hf
      obtain rfl := Option.some.inj hf
      have := chain_le_head_le a t hch x (by simpa using hx)
      omega
    · rw [if_neg hc] at hf
      obtain ⟨j, hj, rfl⟩ := Option.map_eq_some'.mp hf
      have htail : List.Chain' (· ≤ ·) t := hch.tail
      exact ih htail j hj x (by simpa using hx)

/-- Recording into an empty tracker retains exactly the new timestamp. -/
theorem recordRequest_empty (w t : Int) (hw : 0 < w) :
    recordRequest { requests := [], window := w } t =
      { requests := [t], window := w } := by
  simp only [recordRequest, List.nil_append]
  have hc : t - w < t := by omega
  simp [firstAfterIdx, hc]

/-- Recording timestamps that all lie within the window of the tracker's first
retained timestamp never prunes: the requests list just grows. -/
theorem recordAll_no_prune (w t1 : Int) :
    ∀ (ts : List Int) (tr : TpsTrackerState), tr.window = w →
      tr.requests.head? = some t1 →
      (∀ x ∈ ts, x - t1 < w) →
      (recordAll tr ts).requests = tr.requests ++ ts := by
  intro ts
  induction ts with
  | nil =>
    intro tr _ _ _
    simp [recordAll]
  | cons a rest ih =>
    intro tr hw hh hm
    obtain ⟨tl, htr⟩ : ∃ tl, tr.requests = t1 :: tl := by
      cases h : tr.requests with
      | nil => rw [h] at hh; exact absurd hh (by simp)
      | cons t0 tl =>
        rw [h] at hh
        simp only [List.head?_cons, Option.some.injEq] at hh
        exact ⟨tl, by rw [hh]⟩
    have hrec : recordRequest tr a = { tr with requests := tr.requests ++ [a] } := by
      simp only [recordRequest, htr, List.cons_append]
      have hcond : a - tr.window < t1 := by
        have := hm a (by simp)
        omega
      simp [firstAfterIdx, hcond]
    have hstep : recordAll tr (a :: rest) = recordAll (recordRequest tr a) rest := rfl
    rw [hstep, hrec]
    rw [ih { tr with requests := tr.requests ++ [a] } hw
      (by rw [htr]; simp) (fun x hx => hm x (List.mem_cons_of_mem _ hx))]
    simp

/-- Recording preserves the window length. -/
theorem recordAll_window : ∀ (ts : List Int) (tr : TpsTrackerState),
    (recordAll tr ts).window = tr.window := by
  intro ts
  induction ts with
  | nil => intro tr; rfl
  | cons a rest ih =>
    intro tr
    have hstep : recordAll tr (a :: rest) = recordAll (recordRequest tr a) rest := rfl
    rw [hstep, ih]
    rfl

/-- Part 1 of the rate-window property: a strictly increasing burst inside one
window is fully retained and fully counted at its last instant. -/
theorem tps_rate_counts_all (ts : List Int) (tn : Int) (hne : ts ≠ [])
    (hch : List.Chain' (· < ·) ts) (hlast : ts.getLast hne = tn)
    (hspan : tn - ts.head hne < 1000000000) :
    getCurrentRate (recordAll newTPSTracker ts) tn = (ts.length : ℚ) := by
  obtain ⟨t1, rest, rfl⟩ : ∃ t1 rest, ts = t1 :: rest := by
    cases ts with
    | nil => exact absurd rfl hne
    | cons a t => exact ⟨a, t, rfl⟩
  have hhead : (t1 :: rest).head hne = t1 := rfl
  rw [hhead] at hspan
  have hle_tn : ∀ x ∈ t1 :: rest, x ≤ tn := by
    intro x hx
    have := chain_lt_le_getLast (t1 :: rest) hne hch x hx
    omega
  have hge_t1 : ∀ x ∈ t1 :: rest, t1 ≤ x := chain_lt_head_le t1 rest hch
  have hspanx : ∀ x ∈ rest, x - t1 < 1000000000 := by
    intro x hx
    have h1 := hle_tn x (List.mem_cons_of_mem _ hx)
    omega
  have hstep : recordAll newTPSTracker (t1 :: rest)
      = recordAll (recordRequest newTPSTracker t1) rest := rfl
  have hfirst : recordRequest newTPSTracker t1
      = { requests := [t1], window := 1000000000 } :=
    recordRequest_empty 1000000000 t1 (by norm_num)
  have hreq : (recordAll newTPSTracker (t1 :: rest)).requests = t1 :: rest := by
    rw [hstep, hfirst,
      recordAll_no_prune 1000000000 t1 rest { requests := [t1], window := 1000000000 }
        rfl rfl hspanx]
    rfl
  have hwin : (recordAll newTPSTracker (t1 :: rest)).window = 1000000000 :=
    recordAll_window _ _
  simp only [getCurrentRate, hreq, hwin]
  rw [List.filter_eq_self.mpr]
  intro x hx
  have h1 := hge_t1 x hx
  simp only [decide_eq_true_eq]
  omega

/-- Part 2 of the rate-window property: one event at `t0` contributes nothing
to the rate read 1.5 s later (window 1 s). -/
theorem tps_rate_zero_after_window (t0 : Int) :
    getCurrentRate (recordRequest newTPSTracker t0) (t0 + 1500000000) = 0 := by
  have hfirst : recordRequest newTPSTracker t0
      = { requests := [t0], window := 1000000000 } :=
    recordRequest_empty 1000000000 t0 (by norm_num)
  rw [hfirst]
  have hc : (decide (t0 + 1500000000 - 1000000000 < t0)) = false :=
    decide_eq_false (by omega)
  simp [getCurrentRate, hc]

/-- Part 3 of the rate-window property: if the previously retained timestamps
are nondecreasing and not in the future, then after an insertion every
retained timestamp lies within `[now - window, now]`. -/
theorem tps_retained_within_window (tr : TpsTrackerState) (now : Int)
    (hw : 0 < tr.window) (hch : List.Chain' (· ≤ ·) tr.requests)
    (hpast : ∀ x ∈ tr.requests, x ≤ now) :
    ∀ x ∈ (recordRequest tr now).requests, now - tr.window ≤ x ∧ x ≤ now := by
  intro x hx
  have hchapp : List.Chain' (· ≤ ·) (tr.requests ++ [now]) := by
    rw [List.chain'_append]
    refine ⟨hch, List.chain'_singleton now, ?_⟩
    intro a ha b hb
    simp only [List.head?_cons, Option.mem_def, Option.some.injEq] at hb
    subst hb
    exact hpast a (List.mem_of_getLast?_eq_some (Option.mem_def.mp ha))
  have hmem_le : ∀ y ∈ tr.requests ++ [now], y ≤ now := by
    intro y hy
    rcases List.mem_append.mp hy with h | h
    · exact hpast y h
    · simp at h
      omega
  simp only [recordRequest] at hx
  cases hfa : firstAfterIdx (now - tr.window) (tr.requests ++ [now]) with
  | none =>
    have hn := firstAfterIdx_none (now - tr.window) (tr.requests ++ [now]) hfa now
      (by simp)
    omega
  | some i =>
    rw [hfa] at hx
    have hdrop : x ∈ (tr.requests ++ [now]).drop i := by
      by_cases hi : (some i).getD 0 > 0
      · rw [if_pos hi] at hx
        simpa using hx
      · rw [if_neg hi] at hx
        have hz : i = 0 := by simpa using hi
        subst hz
        simpa using hx
    have hcut := firstAfterIdx_drop (now - tr.window) (tr.requests ++ [now]) hchapp i hfa
      x hdrop
    have hxin : x ∈ tr.requests ++ [now] := List.mem_of_mem_drop hdrop
    exact ⟨by omega, hmem_le x hxin⟩

/-- C9: the sliding-window rate estimator (tps_tracker.go) counts a strictly
increasing burst inside one 1-second window exactly (`currentRate` at the last
instant equals `n`), reads 0 at `t0 + 1.5 s` after a single event at `t0`, and
after every insertion all retained timestamps lie within `[now - window, now]`
(provided previously retained timestamps were nondecreasing and not in the
future, as produced by the monotone clock). -/
theorem tps_window_correct :
    (∀ (ts : List Int) (tn : Int) (hne : ts ≠ []),
      List.Chain' (· < ·) ts → ts.getLast hne = tn →
      tn - ts.head hne < 1000000000 →
      getCurrentRate (recordAll newTPSTracker ts) tn = (ts.length : ℚ)) ∧
    (∀ t0 : Int, getCurrentRate (recordRequest newTPSTracker t0) (t0 + 1500000000) = 0) ∧
    (∀ (tr : TpsTrackerState) (now : Int), 0 < tr.window →
      List.Chain' (· ≤ ·) tr.requests → (∀ x ∈ tr.requests, x ≤ now) →
      ∀ x ∈ (recordRequest tr now).requests, now - tr.window ≤ x ∧ x ≤ now) :=
  ⟨fun ts tn hne hch hlast hspan => tps_rate_counts_all ts tn hne hch hlast hspan,
   tps_rate_zero_after_window,
   tps_retained_within_window⟩

/-- Witness for `tps_window_correct`: the burst `0, 100, 200` counted at 200;
one event at 0 read at 1.5 s; the single retained timestamp after inserting
into a fresh tracker at time 0. -/
theorem tps_window_correct_witness :
    getCurrentRate (recordAll newTPSTracker [0, 100, 200]) 200
      = (([0, 100, 200] : List Int).length : ℚ) ∧
    getCurrentRate (recordRequest newTPSTracker 0) (0 + 1500000000) = 0 ∧
    ((0 : Int) - newTPSTracker.window ≤ 0 ∧ (0 : Int) ≤ 0) :=
  ⟨tps_window_correct.1 [0, 100, 200] 200 (by simp)
     (by simp [List.chain'_cons]) rfl (by norm_num),
   tps_window_correct.2.1 0,
   tps_window_correct.2.2 newTPSTracker 0 (by decide)
     (by simp [newTPSTracker])
     (by intro x hx; simp [newTPSTracker] at hx)
     0 (by simp [recordRequest, newTPSTracker, firstAfterIdx])⟩

/-- Witness for `denied_acquire_release_noop`: no concurrency limit configured
(`maxConcurrency = 0`) denies; the returned no-op leaves any ledger
unchanged. -/
theorem denied_acquire_release_noop_witness :
    (acquireSlot (.ok stNoLimits) "k" ledgerOne).release ≠ none ∧
    (acquireSlot (.ok stNoLimits) "k" ledgerOne).ledger = ledgerOne ∧
    ledgerCount ((fun l2 : Ledger => l2)^[2] ledgerThree) "k" = ledgerCount ledgerThree "k" :=
  ⟨(denied_acquire_release_noop (.ok stNoLimits) "k" ledgerOne (by decide)).1,
   (denied_acquire_release_noop (.ok stNoLimits) "k" ledgerOne (by decide)).2.1,
   (denied_acquire_release_noop (.ok stNoLimits) "k" ledgerOne (by decide)).2.2
     (fun l2 => l2) rfl 2 ledgerThree "k"⟩

end LccSdk
